import Mathlib

/-!
Verification of the Signal Routing & Causal Attribution Engine
(`src/causal-finance/semantic-router.js`, `src/causal-finance/causal-attribution.js`,
and the semantic scorer).

Shallow embedding conventions:
* JS numbers are modelled as `ℚ` (every numeric literal in the sources is an
  exact decimal; `Date.now()` timestamps are passed in explicitly as `ℚ`).
* JS `Map` objects are modelled as association lists with `Map.get` / `Map.set`
  semantics (`mapGet` / `mapSet`): `set` replaces the value of an existing key
  in place, otherwise appends; iteration order is insertion order.
* Side-effecting methods become state-passing functions; the external strategy
  executors (which perform RPC calls and use `Math.random()`) are passed in as
  an explicit function returning `Except String StratResult`, a thrown JS
  exception being the `.error` case.
* `chainModifiers[chainName]` on an unconfigured chain yields `NaN` in JS and
  `NaN >= x` is `false`; this is modelled by `calculateExpectedProfit`
  returning `none`, which likewise fails the `minProfit` filter.
-/

namespace CausalFinance

/-- JS `Map.get`: value of the first (unique) binding of the key. -/
def mapGet {α : Type} : List (String × α) → String → Option α
  | [], _ => none
  | p :: ps, k => if p.1 = k then some p.2 else mapGet ps k

/-- JS `Map.set`: replace the binding in place if the key exists, else append. -/
def mapSet {α : Type} : List (String × α) → String → α → List (String × α)
  | [], k, v => [(k, v)]
  | p :: ps, k, v => if p.1 = k then (k, v) :: ps else p :: mapSet ps k v

/-! ## Semantic scorer (`SemanticScorer` in the scorer source file) -/

/-- An event as consumed by the scorer: only its `type` field is read. -/
structure ScorerEvent where
  type : String
deriving DecidableEq

/-- The scorer's weight table (`weights` in `scoreEvent`). -/
def weights : List (String × ℚ) :=
  [("parameterChange", 10), ("goingConcern", 10), ("firstOfType", 10),
   ("governanceVote", 9), ("insiderAction", 9),
   ("liquidationTrigger", 7), ("oracleUpdate", 6), ("largeTx", 3),
   ("routineTx", 1), ("spam", 0)]

/-- `scoreEvent`: table lookup with default 0 (`weights[event.type] || 0`;
the only falsy table value is the explicit 0 of `"spam"`, for which the JS
`||` default coincides with the table value). -/
def scoreEvent (event : ScorerEvent) : ℚ :=
  (mapGet weights event.type).getD 0

/-- Result record of `calculateCascade`. -/
structure CascadeResult where
  semanticWeight : ℚ
  cascadePotential : ℚ
  priority : String
deriving DecidableEq

/-- `calculateCascade`: cascade potential is the square of the semantic score,
priority `"URGENT"` iff the score is at least 7. -/
def calculateCascade (event : ScorerEvent) : CascadeResult :=
  let score := scoreEvent event
  { semanticWeight := score
    cascadePotential := score ^ 2
    priority := if 7 ≤ score then "URGENT" else "MONITOR" }

/-! ## Semantic router (`SemanticRouter` in `semantic-router.js`) -/

/-- A semantic signal as consumed by `routeSignal` / `calculateExpectedProfit`.
The JS attribution key `signal.txHash || signal.id` is modelled by the single
optional `id` field. -/
structure Signal where
  type : String
  weight : ℚ
  cascadePotential : ℚ
  id : Option String
deriving DecidableEq

/-- One entry of the routing table `this.signalRoutes`. -/
structure Route where
  chains : List String
  strategies : List String
  minProfit : ℚ
  urgency : String
deriving DecidableEq

/-- The routing table `this.signalRoutes` of the `SemanticRouter` constructor. -/
def signalRoutes : List (String × Route) :=
  [("CRITICAL_PARAMETER_CHANGE",
      ⟨["ethereum"], ["liquidation", "positionExit"], 1/10, "immediate"⟩),
   ("LIQUIDATION_THRESHOLD_BREACH",
      ⟨["ethereum", "arbitrum"], ["liquidation", "flashloan"], 1/20, "immediate"⟩),
   ("CROSS_CHAIN_YIELD_DELTA",
      ⟨["ethereum", "arbitrum", "polygon"], ["bridgeArbitrage", "yieldCapture"], 1/50, "fast"⟩),
   ("ORACLE_PRICE_DEVIATION",
      ⟨["ethereum", "arbitrum"], ["oracleArbitrage", "sandwich"], 3/100, "immediate"⟩),
   ("BANKRUPTCY_FILING_DETECTED",
      ⟨["ethereum"], ["massLiquidation", "shortPosition"], 1, "medium"⟩),
   ("REGULATORY_ACTION_PENDING",
      ⟨["ethereum", "arbitrum"], ["positionExit", "hedgeSetup"], 1/2, "medium"⟩),
   ("MEV_OPPORTUNITY_SURFACE",
      ⟨["ethereum", "arbitrum"], ["sandwich", "backrun"], 1/100, "immediate"⟩),
   ("FLASHLOAN_ARBITRAGE_GAP",
      ⟨["ethereum", "arbitrum", "polygon"], ["flashloan", "multiDexArb"], 1/50, "immediate"⟩)]

/-- The `chainModifiers` table of `calculateExpectedProfit`. -/
def chainModifiers : List (String × ℚ) :=
  [("ethereum", 1), ("arbitrum", 7/10), ("polygon", 1/2), ("base", 3/10)]

/-- The `strategyProfits` table of `calculateExpectedProfit`. -/
def strategyProfits : List (String × ℚ) :=
  [("liquidation", 2/25), ("sandwich", 1/50), ("arbitrage", 3/200),
   ("flashloan", 1/40), ("massLiquidation", 3/20), ("bridgeArbitrage", 1/100),
   ("oracleArbitrage", 3/100), ("positionExit", 1/20)]

/-- The per-strategy rate `strategyProfits[strategy] || 0.01`: JS `||` falls
back to 0.01 when the strategy is unconfigured (and would also do so for a
configured rate of 0, were the table to hold one). -/
def strategyRate (s : String) : ℚ :=
  match mapGet strategyProfits s with
  | some v => if v = 0 then 1/100 else v
  | none => 1/100

/-- `calculateExpectedProfit(signal, chainName, route)`.  Returns `none` when
`chainName` has no configured modifier (the JS code then produces `NaN`, which
fails every subsequent `>=` comparison just as `none` fails the filter). -/
def calculateExpectedProfit (signal : Signal) (chainName : String) (route : Route) :
    Option ℚ :=
  match mapGet chainModifiers chainName with
  | none => none
  | some m =>
    let baseProfit := signal.weight / 10
    let maxStrategyProfit :=
      route.strategies.foldl (fun acc s => max acc (strategyRate s)) 0
    let cascadeMultiplier := 1 + signal.cascadePotential / 100
    some (baseProfit * m * maxStrategyProfit * cascadeMultiplier)

/-- An opportunity record pushed by the venue loop of `routeSignal`. -/
structure Opportunity where
  chain : String
  signal : Signal
  expectedProfit : ℚ
  strategies : List String
  urgency : String
deriving DecidableEq

/-- Result of a per-strategy executor (`executeLiquidation`, `executeSandwich`,
`executeFlashLoan`, `executeMassLiquidation` or the default simulation):
always carries `success`, `profit`, `txHash`, `gasUsed`. -/
structure StratResult where
  success : Bool
  profit : ℚ
  txHash : String
  gasUsed : ℚ
deriving DecidableEq

/-- The normalized result returned by `executeStrategy`: on a thrown failure
the catch block returns `{success:false, profit:0, error:message}` (no
`txHash` / `gasUsed` fields). -/
structure ExecResult where
  success : Bool
  profit : ℚ
  txHash : Option String
  gasUsed : Option ℚ
  error : Option String
deriving DecidableEq

/-- `executeStrategy(opportunity)`: dispatch on the primary strategy
`opportunity.strategies[0]`, invoking the externally supplied executor, and
convert any thrown failure into a failure-valued result. -/
def executeStrategy
    (exec : Option String → Opportunity → Except String StratResult)
    (opportunity : Opportunity) : ExecResult :=
  match exec opportunity.strategies.head? opportunity with
  | .ok r => ⟨r.success, r.profit, some r.txHash, some r.gasUsed, none⟩
  | .error e => ⟨false, 0, none, none, some e⟩

/-- An attribution record stored by `trackAttribution`. -/
structure AttributionRecord where
  signalId : Option String
  signalType : String
  timestamp : ℚ
  profit : ℚ
  txHash : String
  gasUsed : ℚ
deriving DecidableEq

/-- The router's attribution state (`this.attributionMap`,
`this.profitsBySignal`). -/
structure RouterState where
  attributionMap : List (String × AttributionRecord)
  profitsBySignal : List (String × ℚ)
deriving DecidableEq

/-- `trackAttribution(signal, result)`: early return on an unsuccessful
result; otherwise store the record under `result.txHash` and accumulate the
per-type profit.  (A success produced by an executor always carries `txHash`
and `gasUsed`, so the `getD` defaults are never reached from `routeSignal`.) -/
def trackAttribution (st : RouterState) (signal : Signal) (result : ExecResult)
    (t : ℚ) : RouterState :=
  if !result.success then st
  else
    let attribution : AttributionRecord :=
      { signalId := signal.id, signalType := signal.type, timestamp := t,
        profit := result.profit, txHash := result.txHash.getD "",
        gasUsed := result.gasUsed.getD 0 }
    let currentProfit := (mapGet st.profitsBySignal signal.type).getD 0
    { attributionMap := mapSet st.attributionMap (result.txHash.getD "") attribution
      profitsBySignal := mapSet st.profitsBySignal signal.type
        (currentProfit + result.profit) }

/-- Body of the venue loop of `routeSignal`: the opportunity pushed for one
chain name, or nothing when the expected profit misses `route.minProfit`. -/
def eligibleOf (signal : Signal) (route : Route) (chainName : String) :
    Option Opportunity :=
  match calculateExpectedProfit signal chainName route with
  | some p =>
    if route.minProfit ≤ p then
      some { chain := chainName, signal := signal, expectedProfit := p,
             strategies := route.strategies, urgency := route.urgency }
    else none
  | none => none

/-- The `opportunities` array built by the `for (const chainName of
route.chains)` loop of `routeSignal`. -/
def eligibleOpportunities (signal : Signal) (route : Route) : List Opportunity :=
  route.chains.foldl (fun acc chainName =>
    match eligibleOf signal route chainName with
    | some o => acc ++ [o]
    | none => acc) []

/-- Stable insertion step for the profit-descending order. -/
def insertOpp (x : Opportunity) : List Opportunity → List Opportunity
  | [] => [x]
  | y :: ys =>
    if y.expectedProfit ≤ x.expectedProfit then x :: y :: ys else y :: insertOpp x ys

/-- `opportunities.sort((a, b) => b.expectedProfit - a.expectedProfit)`:
JS `Array.prototype.sort` is stable, so the result is the unique stable
profit-descending ordering, computed here by stable insertion sort. -/
def sortOpps : List Opportunity → List Opportunity
  | [] => []
  | x :: xs => insertOpp x (sortOpps xs)

/-- `routeSignal(signal)`: look up the route (returning `null` when the type
is unknown), collect the venues whose expected profit reaches `minProfit`,
sort by expected profit descending, execute the top opportunity and track its
attribution. -/
def routeSignal (st : RouterState)
    (exec : Option String → Opportunity → Except String StratResult)
    (signal : Signal) (t : ℚ) : RouterState × Option ExecResult :=
  match mapGet signalRoutes signal.type with
  | none => (st, none)
  | some route =>
    match sortOpps (eligibleOpportunities signal route) with
    | [] => (st, none)
    | best :: _ =>
      let result := executeStrategy exec best
      (trackAttribution st signal result t, some result)

/-! ## Causal attribution ledger (`CausalAttribution` in `causal-attribution.js`) -/

/-- Chain status strings.  The source only ever writes `BROADCASTED`,
`TRIGGERED`, `PROFITABLE` and `COMPLETED`; `FAILED` is the fifth state of the
documented enumeration. -/
inductive Status where
  | BROADCASTED
  | TRIGGERED
  | FAILED
  | PROFITABLE
  | COMPLETED
deriving DecidableEq

/-- Position of a status in the documented partial order
`Broadcasted → {Triggered|Failed} → Profitable → Completed`. -/
def Status.rank : Status → ℕ
  | .BROADCASTED => 0
  | .TRIGGERED => 1
  | .FAILED => 1
  | .PROFITABLE => 2
  | .COMPLETED => 3

def statusToString : Status → String
  | .BROADCASTED => "BROADCASTED"
  | .TRIGGERED => "TRIGGERED"
  | .FAILED => "FAILED"
  | .PROFITABLE => "PROFITABLE"
  | .COMPLETED => "COMPLETED"

def statusOfString : String → Option Status
  | "BROADCASTED" => some .BROADCASTED
  | "TRIGGERED" => some .TRIGGERED
  | "FAILED" => some .FAILED
  | "PROFITABLE" => some .PROFITABLE
  | "COMPLETED" => some .COMPLETED
  | _ => none

/-- The semantic source object stored as a chain's `origin` (the fields the
engine reads and serializes). -/
structure Origin where
  type : String
  source : String
  weight : ℚ
  anchor : Option String
deriving DecidableEq

/-- The `attribution` metadata attached to a tagged JAM; the engine-relevant
part of the stored `jam` object (the opaque caller payload spread into the JAM
is not inspected by the ledger). -/
structure Attribution where
  signalId : String
  semanticWeight : ℚ
  sourceType : String
  timestamp : ℚ
  causalAnchor : Option String
  expectedCascade : ℚ
deriving DecidableEq

/-- One element of a chain's `events` array as appended by `recordEvent`. -/
structure RecordedEvent where
  timestamp : ℚ
  type : String
  txHash : String
  gasUsed : ℚ
  response : Option String
deriving DecidableEq

/-- A causal chain (value of `this.chains`). -/
structure Chain where
  origin : Origin
  jam : Attribution
  events : List RecordedEvent
  profit : ℚ
  status : Status
  semanticROI : Option ℚ
deriving DecidableEq

/-- A profit entry (value of `this.profits`, keyed by `txHash`). -/
structure ProfitRecord where
  signalId : String
  txHash : String
  amountETH : ℚ
  gasSpent : ℚ
  netProfit : ℚ
  timestamp : ℚ
  liquidationType : String
deriving DecidableEq

/-- The argument object of `recordProfit` (`gasSpent` and `type` may be
absent: `profitData.gasSpent || 0`, `profitData.type || 'UNKNOWN'`). -/
structure ProfitData where
  txHash : String
  amountETH : ℚ
  gasSpent : Option ℚ
  type : Option String
deriving DecidableEq

/-- The value returned by a successful `recordProfit` call. -/
structure RecordProfitResult where
  signalId : String
  profit : ℚ
  semanticROI : ℚ
  cascadeMultiplier : ℚ
deriving DecidableEq

/-- The argument object of `recordEvent`. -/
structure EventData where
  type : String
  txHash : String
  gasUsed : Option ℚ
  response : Option String
deriving DecidableEq

/-- The in-memory ledger state (`this.chains`, `this.profits`; the database
path is an external constant). -/
structure Ledger where
  chains : List (String × Chain)
  profits : List (String × ProfitRecord)
deriving DecidableEq

/-- `tagJAM(jamData, semanticSource)` restricted to its ledger effect: open a
`BROADCASTED` chain under the generated signal id.  The id comes from
`generateSignalId`, which mixes in external randomness, so it is passed in
explicitly. -/
def tagJAM (l : Ledger) (signalId : String) (semanticSource : Origin) (t : ℚ) :
    Ledger :=
  let attribution : Attribution :=
    { signalId := signalId, semanticWeight := semanticSource.weight,
      sourceType := semanticSource.type, timestamp := t,
      causalAnchor := semanticSource.anchor,
      expectedCascade := semanticSource.weight ^ 2 }
  let chain : Chain :=
    { origin := semanticSource, jam := attribution, events := [],
      profit := 0, status := .BROADCASTED, semanticROI := none }
  { l with chains := mapSet l.chains signalId chain }

/-- `recordEvent(signalId, eventData)`: silently ignore an unknown id, append
the event, and overwrite the status from the event type alone
(`BOT_RESPONSE` → `TRIGGERED`, `LIQUIDATION_EXECUTED` → `PROFITABLE`). -/
def recordEvent (l : Ledger) (signalId : String) (e : EventData) (t : ℚ) :
    Ledger :=
  match mapGet l.chains signalId with
  | none => l
  | some chain =>
    let ev : RecordedEvent :=
      { timestamp := t, type := e.type, txHash := e.txHash,
        gasUsed := e.gasUsed.getD 0, response := e.response }
    let status :=
      if e.type = "BOT_RESPONSE" then Status.TRIGGERED
      else if e.type = "LIQUIDATION_EXECUTED" then Status.PROFITABLE
      else chain.status
    let chain' : Chain :=
      { chain with events := chain.events ++ [ev], status := status }
    { l with chains := mapSet l.chains signalId chain' }

/-! ### Persistence (`saveToDatabase` / `loadFromDatabase`)

The snapshot written by `saveToDatabase` is
`JSON.stringify({chains: [...entries], profits: [...entries], timestamp})`;
`loadFromDatabase` parses it and rebuilds the two maps with `new Map(...)`.
The JSON document is modelled by an explicit `Json` value. -/

inductive Json where
  | null : Json
  | str : String → Json
  | num : ℚ → Json
  | arr : List Json → Json
  | obj : List (String × Json) → Json

def encodeOptStr : Option String → Json
  | none => .null
  | some s => .str s

def encodeOrigin (o : Origin) : Json :=
  .obj [("type", .str o.type), ("source", .str o.source),
        ("weight", .num o.weight), ("anchor", encodeOptStr o.anchor)]

def decodeOptStr : Json → Option (Option String)
  | .null => some none
  | .str s => some (some s)
  | _ => none

def decodeOrigin : Json → Option Origin
  | .obj [("type", .str t), ("source", .str s), ("weight", .num w), ("anchor", a)] =>
    (decodeOptStr a).map fun anchor => ⟨t, s, w, anchor⟩
  | _ => none

def encodeAttribution (a : Attribution) : Json :=
  .obj [("signalId", .str a.signalId), ("semanticWeight", .num a.semanticWeight),
        ("sourceType", .str a.sourceType), ("timestamp", .num a.timestamp),
        ("causalAnchor", encodeOptStr a.causalAnchor),
        ("expectedCascade", .num a.expectedCascade)]

def decodeAttribution : Json → Option Attribution
  | .obj [("signalId", .str i), ("semanticWeight", .num w), ("sourceType", .str s),
          ("timestamp", .num t), ("causalAnchor", c), ("expectedCascade", .num e)] =>
    (decodeOptStr c).map fun anchor => ⟨i, w, s, t, anchor, e⟩
  | _ => none

def encodeEvent (e : RecordedEvent) : Json :=
  .obj [("timestamp", .num e.timestamp), ("type", .str e.type),
        ("txHash", .str e.txHash), ("gasUsed", .num e.gasUsed),
        ("response", encodeOptStr e.response)]

def decodeEvent : Json → Option RecordedEvent
  | .obj [("timestamp", .num t), ("type", .str ty), ("txHash", .str h),
          ("gasUsed", .num g), ("response", r)] =>
    (decodeOptStr r).map fun response => ⟨t, ty, h, g, response⟩
  | _ => none

def decodeList {α : Type} (f : Json → Option α) : List Json → Option (List α)
  | [] => some []
  | j :: js => do
    let a ← f j
    let as ← decodeList f js
    pure (a :: as)

/-- Serialize a chain.  `semanticROI` is only assigned by `recordProfit`, so
before that point the JS object has no such key and `JSON.stringify` omits it
(`none` is modelled by an absent entry, not by `null`). -/
def encodeChain (c : Chain) : Json :=
  .obj ([("origin", encodeOrigin c.origin), ("jam", encodeAttribution c.jam),
         ("events", .arr (c.events.map encodeEvent)), ("profit", .num c.profit),
         ("status", .str (statusToString c.status))] ++
        (match c.semanticROI with
         | none => []
         | some r => [("semanticROI", .num r)]))

def decodeTail : List (String × Json) → Option (Option ℚ)
  | [] => some none
  | [("semanticROI", .num r)] => some (some r)
  | _ => none

def decodeChain : Json → Option Chain
  | .obj (("origin", o) :: ("jam", j) :: ("events", .arr es) ::
          ("profit", .num p) :: ("status", .str st) :: rest) => do
    let origin ← decodeOrigin o
    let jam ← decodeAttribution j
    let events ← decodeList decodeEvent es
    let status ← statusOfString st
    let semanticROI ← decodeTail rest
    pure ⟨origin, jam, events, p, status, semanticROI⟩
  | _ => none

def encodeProfitRecord (p : ProfitRecord) : Json :=
  .obj [("signalId", .str p.signalId), ("txHash", .str p.txHash),
        ("amountETH", .num p.amountETH), ("gasSpent", .num p.gasSpent),
        ("netProfit", .num p.netProfit), ("timestamp", .num p.timestamp),
        ("liquidationType", .str p.liquidationType)]

def decodeProfitRecord : Json → Option ProfitRecord
  | .obj [("signalId", .str i), ("txHash", .str h), ("amountETH", .num a),
          ("gasSpent", .num g), ("netProfit", .num n), ("timestamp", .num t),
          ("liquidationType", .str ty)] =>
    some ⟨i, h, a, g, n, t, ty⟩
  | _ => none

/-- A `Map` entry `[key, value]` as produced by `Array.from(map.entries())`. -/
def encodeChainEntry (p : String × Chain) : Json :=
  .arr [.str p.1, encodeChain p.2]

def decodeChainEntry : Json → Option (String × Chain)
  | .arr [.str k, c] => (decodeChain c).map fun chain => (k, chain)
  | _ => none

def encodeProfitEntry (p : String × ProfitRecord) : Json :=
  .arr [.str p.1, encodeProfitRecord p.2]

def decodeProfitEntry : Json → Option (String × ProfitRecord)
  | .arr [.str k, c] => (decodeProfitRecord c).map fun pr => (k, pr)
  | _ => none

/-- `saveToDatabase()`: the JSON document written to `causal-profits.json`. -/
def saveToDatabase (l : Ledger) (t : ℚ) : Json :=
  .obj [("chains", .arr (l.chains.map encodeChainEntry)),
        ("profits", .arr (l.profits.map encodeProfitEntry)),
        ("timestamp", .num t)]

/-- `loadFromDatabase()`: rebuild `this.chains` and `this.profits` from the
parsed document (`new Map(parsed.chains)`, `new Map(parsed.profits)`); any
malformed document is a failure (the JS `catch`-branch keeps a fresh ledger). -/
def loadFromDatabase (j : Json) : Option Ledger :=
  match j with
  | .obj fields => do
    let cjson ← mapGet fields "chains"
    let pjson ← mapGet fields "profits"
    match cjson, pjson with
    | .arr cs, .arr ps => do
      let chains ← decodeList decodeChainEntry cs
      let profits ← decodeList decodeProfitEntry ps
      pure ⟨chains, profits⟩
    | _, _ => none
  | _ => none

/-- Everything a `recordProfit` call produces: the updated ledger, the
returned value, and the snapshot written by the trailing `saveToDatabase()`
(`none` when no write happened). -/
structure RecordProfitOut where
  ledger : Ledger
  result : Option RecordProfitResult
  saved : Option Json

/-- `recordProfit(signalId, profitData)`: unknown id is a no-op returning
`undefined`; otherwise accumulate `netProfit = amountETH - gasSpent` into the
chain, set status `COMPLETED`, store the profit entry under `txHash`, compute
`semanticROI = netProfit / origin.weight * 100`, and persist the snapshot. -/
def recordProfit (l : Ledger) (signalId : String) (pd : ProfitData) (t : ℚ) :
    RecordProfitOut :=
  match mapGet l.chains signalId with
  | none => ⟨l, none, none⟩
  | some chain =>
    let gasSpent := pd.gasSpent.getD 0
    let netProfit := pd.amountETH - gasSpent
    let profit : ProfitRecord :=
      { signalId := signalId, txHash := pd.txHash, amountETH := pd.amountETH,
        gasSpent := gasSpent, netProfit := netProfit, timestamp := t,
        liquidationType := pd.type.getD "UNKNOWN" }
    let semanticROI := netProfit / chain.origin.weight * 100
    let chain' : Chain :=
      { chain with profit := chain.profit + netProfit,
                   status := .COMPLETED, semanticROI := some semanticROI }
    let l' : Ledger :=
      { chains := mapSet l.chains signalId chain',
        profits := mapSet l.profits pd.txHash profit }
    ⟨l', some ⟨signalId, netProfit, semanticROI, netProfit / (2/100)⟩,
     some (saveToDatabase l' t)⟩

/-! ## Concrete instances used in the claim statements -/

/-- The concrete scenario signal
`{type: LIQUIDATION_THRESHOLD_BREACH, weight: 9.5, cascadePotential: 85}`. -/
def sig0 : Signal := ⟨"LIQUIDATION_THRESHOLD_BREACH", 19/2, 85, none⟩

/-- The configured route of `LIQUIDATION_THRESHOLD_BREACH`. -/
def route0 : Route :=
  ⟨["ethereum", "arbitrum"], ["liquidation", "flashloan"], 1/20, "immediate"⟩

/-- The ethereum opportunity for `sig0`: expected profit
`0.95 × 1.0 × 0.08 × 1.85`. -/
def ethOpp : Opportunity :=
  ⟨"ethereum", sig0, 19/20 * 1 * (2/25) * (37/20),
   ["liquidation", "flashloan"], "immediate"⟩

/-- The arbitrum opportunity for `sig0`: expected profit
`0.95 × 0.7 × 0.08 × 1.85`. -/
def arbOpp : Opportunity :=
  ⟨"arbitrum", sig0, 19/20 * (7/10) * (2/25) * (37/20),
   ["liquidation", "flashloan"], "immediate"⟩

/-- A semantic source for concrete ledgers. -/
def origin0 : Origin := ⟨"parameterChange", "MakerDAO stability fee increase", 10, none⟩

def ledger0 : Ledger := ⟨[], []⟩

/-- A freshly broadcasted chain for `origin0`. -/
def chainB : Chain :=
  ⟨origin0, ⟨"SIG-1", 10, "parameterChange", 0, none, 100⟩, [], 0, .BROADCASTED, none⟩

/-- A one-chain ledger holding `chainB` under `"SIG-1"`. -/
def lW : Ledger := ⟨[("SIG-1", chainB)], []⟩

/-- Profit data: `amountETH = 5`, `gasSpent = 1`, so `netProfit = 4`. -/
def pd0 : ProfitData := ⟨"0xT", 5, some 1, none⟩

/-- Ledger after tagging `"SIG-1"`. -/
def l3a : Ledger := tagJAM ledger0 "SIG-1" origin0 0

/-- Ledger after recording profit on `"SIG-1"` (status `COMPLETED`). -/
def l3b : Ledger := (recordProfit l3a "SIG-1" pd0 1).ledger

/-- Ledger after a subsequent `BOT_RESPONSE` event on the completed chain. -/
def l3c : Ledger := recordEvent l3b "SIG-1" ⟨"BOT_RESPONSE", "0xE", none, none⟩ 2

/-- Ledger after recording the same profit data (same `txHash`) a second time. -/
def l4c : Ledger := (recordProfit l3b "SIG-1" pd0 2).ledger

/-- An executor whose every invocation succeeds with fixed result fields. -/
def execOk : Option String → Opportunity → Except String StratResult :=
  fun _ _ => .ok ⟨true, 1, "0xabc", 21000⟩

/-- An executor whose every invocation throws. -/
def execFail : Option String → Opportunity → Except String StratResult :=
  fun _ _ => .error "strategy reverted"

/-- The empty router attribution state. -/
def st0 : RouterState := ⟨[], []⟩

/-- A concrete opportunity for the dispatcher claims. -/
def opp7 : Opportunity := ⟨"ethereum", ⟨"MEV_OPPORTUNITY_SURFACE", 5, 10, none⟩, 1/10, ["sandwich", "backrun"], "immediate"⟩

/-! ## Helper lemmas -/

theorem mapGet_mapSet_self {α : Type} (m : List (String × α)) (k : String) (v : α) :
    mapGet (mapSet m k v) k = some v := by
  induction m with
  | nil => simp [mapGet, mapSet]
  | cons p ps ih =>
    by_cases h : p.1 = k
    · simp [mapGet, mapSet, h]
    · simp [mapGet, mapSet, h, ih]

theorem mapGet_mem {α : Type} {m : List (String × α)} {k : String} {v : α}
    (h : mapGet m k = some v) : ∃ k', (k', v) ∈ m := by
  induction m with
  | nil => simp [mapGet] at h
  | cons p ps ih =>
    by_cases hp : p.1 = k
    · simp [mapGet, hp] at h
      exact ⟨p.1, by simp [← h]⟩
    · simp [mapGet, hp] at h
      obtain ⟨k', hk'⟩ := ih h
      exact ⟨k', by simp [hk']⟩

theorem mem_insertOpp {a x : Opportunity} {l : List Opportunity} :
    a ∈ insertOpp x l ↔ a = x ∨ a ∈ l := by
  induction l with
  | nil => simp [insertOpp]
  | cons y ys ih =>
    simp only [insertOpp]
    split
    · simp [List.mem_cons]
    · simp only [List.mem_cons, ih]
      tauto

theorem mem_sortOpps {a : Opportunity} {l : List Opportunity} :
    a ∈ sortOpps l ↔ a ∈ l := by
  induction l with
  | nil => simp [sortOpps]
  | cons x xs ih => simp [sortOpps, mem_insertOpp, ih]

theorem pairwise_insertOpp (x : Opportunity) (l : List Opportunity)
    (h : l.Pairwise (fun a b => b.expectedProfit ≤ a.expectedProfit)) :
    (insertOpp x l).Pairwise (fun a b => b.expectedProfit ≤ a.expectedProfit) := by
  induction l with
  | nil => simp [insertOpp]
  | cons y ys ih =>
    cases h with
    | cons hy hys =>
      simp only [insertOpp]
      by_cases hle : y.expectedProfit ≤ x.expectedProfit
      · rw [if_pos hle]
        refine List.Pairwise.cons ?_ (List.Pairwise.cons hy hys)
        intro b hb
        rcases List.mem_cons.mp hb with rfl | hb
        · exact hle
        · exact le_trans (hy b hb) hle
      · rw [if_neg hle]
        refine List.Pairwise.cons ?_ (ih hys)
        intro b hb
        rcases mem_insertOpp.mp hb with rfl | hb
        · exact le_of_not_le hle
        · exact hy b hb

theorem sortOpps_pairwise (l : List Opportunity) :
    (sortOpps l).Pairwise (fun a b => b.expectedProfit ≤ a.expectedProfit) := by
  induction l with
  | nil => simp [sortOpps]
  | cons x xs ih => exact pairwise_insertOpp x (sortOpps xs) ih

theorem sortOpps_head_max {l : List Opportunity} {x : Opportunity}
    {rest : List Opportunity} (h : sortOpps l = x :: rest) :
    ∀ y ∈ l, y.expectedProfit ≤ x.expectedProfit := by
  intro y hy
  have hy' : y ∈ sortOpps l := mem_sortOpps.mpr hy
  rw [h] at hy'
  rcases List.mem_cons.mp hy' with rfl | hy''
  · exact le_refl _
  · have hp := sortOpps_pairwise l
    rw [h] at hp
    cases hp with
    | cons hx _ => exact hx y hy''

theorem foldl_push_eq (f : String → Option Opportunity) :
    ∀ (l : List String) (acc : List Opportunity),
      l.foldl (fun a c =>
        match f c with
        | some o => a ++ [o]
        | none => a) acc = acc ++ l.filterMap f := by
  intro l
  induction l with
  | nil => simp
  | cons c cs ih =>
    intro acc
    simp only [List.foldl_cons, List.filterMap_cons]
    cases hf : f c with
    | none => simp [ih acc]
    | some o => simp [ih (acc ++ [o])]

theorem eligibleOpportunities_eq_filterMap (signal : Signal) (route : Route) :
    eligibleOpportunities signal route
      = route.chains.filterMap (eligibleOf signal route) := by
  unfold eligibleOpportunities
  simpa using foldl_push_eq (eligibleOf signal route) route.chains []

theorem mem_eligible_minProfit {signal : Signal} {route : Route}
    {o : Opportunity} (h : o ∈ eligibleOpportunities signal route) :
    route.minProfit ≤ o.expectedProfit := by
  rw [eligibleOpportunities_eq_filterMap] at h
  obtain ⟨c, -, hc⟩ := List.mem_filterMap.mp h
  unfold eligibleOf at hc
  cases hp : calculateExpectedProfit signal c route with
  | none => rw [hp] at hc; simp at hc
  | some p =>
    rw [hp] at hc
    by_cases hge : route.minProfit ≤ p
    · simp only [hge, if_true, Option.some.injEq] at hc
      rw [← hc]
      exact hge
    · simp [hge] at hc

theorem strategyRate_pos (s : String) : 0 < strategyRate s := by
  cases h : mapGet strategyProfits s with
  | none => simp only [strategyRate, h]; norm_num
  | some v =>
    obtain ⟨k, hk⟩ := mapGet_mem h
    simp only [strategyRate, h]
    by_cases hv : v = 0
    · simp [hv]
    · rw [if_neg hv]
      have hval : v ∈ strategyProfits.map Prod.snd := List.mem_map_of_mem Prod.snd hk
      simp only [strategyProfits, List.map_cons, List.map_nil] at hval
      fin_cases hval <;> norm_num

theorem foldl_max_rate :
    ∀ (l : List String) (init : ℚ),
      init ≤ l.foldl (fun acc s => max acc (strategyRate s)) init ∧
      (l.foldl (fun acc s => max acc (strategyRate s)) init = init ∨
        l.foldl (fun acc s => max acc (strategyRate s)) init ∈ l.map strategyRate) ∧
      ∀ s ∈ l, strategyRate s ≤ l.foldl (fun acc s => max acc (strategyRate s)) init := by
  intro l
  induction l with
  | nil => intro init; simp
  | cons x xs ih =>
    intro init
    simp only [List.foldl_cons]
    obtain ⟨h1, h2, h3⟩ := ih (max init (strategyRate x))
    refine ⟨le_trans (le_max_left _ _) h1, ?_, ?_⟩
    · rcases h2 with h2 | h2
      · rcases max_choice init (strategyRate x) with hm | hm
        · exact Or.inl (by rw [h2, hm])
        · exact Or.inr (by rw [h2, hm]; simp)
      · exact Or.inr (by simp [h2])
    · intro s hs
      rcases List.mem_cons.mp hs with rfl | hs
      · exact le_trans (le_max_right _ _) h1
      · exact h3 s hs

theorem sig0_route : mapGet signalRoutes sig0.type = some route0 := rfl

theorem eligible_sig0 : eligibleOpportunities sig0 route0 = [ethOpp, arbOpp] := by
  simp [eligibleOpportunities, eligibleOf, calculateExpectedProfit, sig0, route0,
        ethOpp, arbOpp, mapGet, chainModifiers, strategyRate, strategyProfits,
        List.foldl]
  norm_num

theorem sort_sig0 : sortOpps [ethOpp, arbOpp] = [ethOpp, arbOpp] := by
  simp [sortOpps, insertOpp, ethOpp, arbOpp]
  norm_num

theorem routeSignal_sig0 (st : RouterState)
    (exec : Option String → Opportunity → Except String StratResult) (t : ℚ) :
    routeSignal st exec sig0 t =
      (trackAttribution st sig0 (executeStrategy exec ethOpp) t,
       some (executeStrategy exec ethOpp)) := by
  simp [routeSignal, sig0_route, eligible_sig0, sort_sig0]

theorem decodeOptStr_encodeOptStr (o : Option String) :
    decodeOptStr (encodeOptStr o) = some o := by
  cases o <;> rfl

theorem decodeOrigin_encodeOrigin (o : Origin) :
    decodeOrigin (encodeOrigin o) = some o := by
  cases o
  simp [encodeOrigin, decodeOrigin, decodeOptStr_encodeOptStr]

theorem decodeAttribution_encodeAttribution (a : Attribution) :
    decodeAttribution (encodeAttribution a) = some a := by
  cases a
  simp [encodeAttribution, decodeAttribution, decodeOptStr_encodeOptStr]

theorem decodeEvent_encodeEvent (e : RecordedEvent) :
    decodeEvent (encodeEvent e) = some e := by
  cases e
  simp [encodeEvent, decodeEvent, decodeOptStr_encodeOptStr]

theorem statusOfString_statusToString (s : Status) :
    statusOfString (statusToString s) = some s := by
  cases s <;> rfl

theorem decodeList_map {α : Type} (f : Json → Option α) (g : α → Json)
    (hfg : ∀ a, f (g a) = some a) (l : List α) :
    decodeList f (l.map g) = some l := by
  induction l with
  | nil => rfl
  | cons a as ih => simp [decodeList, hfg, ih]

theorem decodeChain_encodeChain (c : Chain) :
    decodeChain (encodeChain c) = some c := by
  obtain ⟨origin, jam, events, profit, status, semanticROI⟩ := c
  cases semanticROI <;>
    simp [encodeChain, decodeChain, decodeTail,
          decodeOrigin_encodeOrigin, decodeAttribution_encodeAttribution,
          decodeList_map decodeEvent encodeEvent decodeEvent_encodeEvent,
          statusOfString_statusToString]

theorem decodeProfitRecord_encodeProfitRecord (p : ProfitRecord) :
    decodeProfitRecord (encodeProfitRecord p) = some p := by
  cases p
  simp [encodeProfitRecord, decodeProfitRecord]

theorem decodeChainEntry_encodeChainEntry (p : String × Chain) :
    decodeChainEntry (encodeChainEntry p) = some p := by
  cases p
  simp [encodeChainEntry, decodeChainEntry, decodeChain_encodeChain]

theorem decodeProfitEntry_encodeProfitEntry (p : String × ProfitRecord) :
    decodeProfitEntry (encodeProfitEntry p) = some p := by
  cases p
  simp [encodeProfitEntry, decodeProfitEntry, decodeProfitRecord_encodeProfitRecord]

/-! ## Claim theorems -/

/-- C9: for every event, `calculateCascade` returns a `semanticWeight` equal
to the scorer's table weight for the event's category (with 0 for every
unknown category), a `cascadePotential` equal to the square of that weight,
and priority `"URGENT"` exactly when the weight is at least 7 (`"MONITOR"`
otherwise); in particular a `"parameterChange"` event has cascade potential
`10² = 100`. -/
theorem calculateCascade_spec :
    (∀ e, (calculateCascade e).semanticWeight = scoreEvent e) ∧
    (∀ e, (calculateCascade e).cascadePotential = scoreEvent e ^ 2) ∧
    (∀ e, ((calculateCascade e).priority = "URGENT" ↔ 7 ≤ scoreEvent e) ∧
          ((calculateCascade e).priority = "MONITOR" ↔ scoreEvent e < 7)) ∧
    (∀ t, mapGet weights t = none → scoreEvent ⟨t⟩ = 0) ∧
    (calculateCascade ⟨"parameterChange"⟩).cascadePotential = 100 := by
  refine ⟨fun e => rfl, fun e => rfl, fun e => ?_, fun t ht => ?_, ?_⟩
  · constructor
    · by_cases h : 7 ≤ scoreEvent e <;> simp [calculateCascade, h]
    · by_cases h : 7 ≤ scoreEvent e
      · simp [calculateCascade, h]
      · simp [calculateCascade, h]
        exact lt_of_not_le h
  · simp [scoreEvent, ht]
  · simp [calculateCascade, scoreEvent, mapGet, weights]
    norm_num

/-- C9 witness: the unknown-category default and the concrete quadratic law,
by direct application of `calculateCascade_spec`. -/
theorem calculateCascade_spec_witness :
    scoreEvent ⟨"mysteryCategory"⟩ = 0 ∧
    (calculateCascade ⟨"parameterChange"⟩).cascadePotential = 100 :=
  ⟨calculateCascade_spec.2.2.2.1 "mysteryCategory" rfl,
   calculateCascade_spec.2.2.2.2⟩

/-- C5: for a signal whose type has no routing-table entry, `routeSignal`
returns the explicit no-route outcome `(st, none)` for every executor: no
opportunity is produced, no execution is dispatched, and the attribution
state is exactly as before the call. -/
theorem routeSignal_unknown_type_noop (st : RouterState)
    (exec : Option String → Opportunity → Except String StratResult)
    (signal : Signal) (t : ℚ)
    (h : mapGet signalRoutes signal.type = none) :
    routeSignal st exec signal t = (st, none) := by
  simp [routeSignal, h]

/-- C5 witness: the type `"UNKNOWN"` has no route, and routing it leaves the
state untouched and returns no result. -/
theorem routeSignal_unknown_type_noop_witness :
    routeSignal st0 execOk ⟨"UNKNOWN", 19/2, 85, none⟩ 0 = (st0, none) :=
  routeSignal_unknown_type_noop st0 execOk ⟨"UNKNOWN", 19/2, 85, none⟩ 0 rfl

/-- C7: when the invoked strategy execution throws, `executeStrategy` returns
`{success: false, profit: 0, error: message}` instead of propagating the
exception. -/
theorem executeStrategy_converts_thrown_failure
    (exec : Option String → Opportunity → Except String StratResult)
    (opportunity : Opportunity) (e : String)
    (h : exec opportunity.strategies.head? opportunity = .error e) :
    executeStrategy exec opportunity = ⟨false, 0, none, none, some e⟩ := by
  simp [executeStrategy, h]

/-- C7 witness: a throwing executor on a concrete opportunity yields the
failure-valued result. -/
theorem executeStrategy_converts_thrown_failure_witness :
    executeStrategy execFail opp7 = ⟨false, 0, none, none, some "strategy reverted"⟩ :=
  executeStrategy_converts_thrown_failure execFail opp7 "strategy reverted" rfl

/-- C10: `recordProfit` on a chain id absent from the ledger returns no
result, leaves the ledger unchanged, and performs no persistence write. -/
theorem recordProfit_unknown_chain_noop (l : Ledger) (id : String)
    (pd : ProfitData) (t : ℚ) (h : mapGet l.chains id = none) :
    recordProfit l id pd t = ⟨l, none, none⟩ := by
  simp [recordProfit, h]

/-- C10 witness: recording profit against an empty ledger is a no-op. -/
theorem recordProfit_unknown_chain_noop_witness :
    recordProfit ledger0 "SIG-MISSING" pd0 0 = ⟨ledger0, none, none⟩ :=
  recordProfit_unknown_chain_noop ledger0 "SIG-MISSING" pd0 0 rfl

/-- C8 counterexample: routing `sig0` with an executor that throws produces a
failed `ExecResult`, yet the attribution state after the call is exactly the
initial state, which holds no record at all — the failed outcome is not
recorded anywhere. -/
theorem failed_execution_not_recorded_counterexample :
    (routeSignal st0 execFail sig0 0).2 =
        some ⟨false, 0, none, none, some "strategy reverted"⟩ ∧
    (routeSignal st0 execFail sig0 0).1 = st0 ∧
    st0.attributionMap = [] ∧ st0.profitsBySignal = [] := by
  rw [routeSignal_sig0]
  refine ⟨rfl, ?_, rfl, rfl⟩
  simp [trackAttribution, executeStrategy, execFail]

/-- C8 (amended): execution failures are not recorded in the attribution
state: `trackAttribution` returns its state argument unchanged whenever the
execution result is unsuccessful, so only successful executions leave a
record. -/
theorem trackAttribution_ignores_failures (st : RouterState) (signal : Signal)
    (result : ExecResult) (t : ℚ) (h : result.success = false) :
    trackAttribution st signal result t = st := by
  simp [trackAttribution, h]

/-- C8 amended witness: tracking a concrete failed result leaves the state
unchanged. -/
theorem trackAttribution_ignores_failures_witness :
    trackAttribution st0 sig0 ⟨false, 0, none, none, some "strategy reverted"⟩ 0 = st0 :=
  trackAttribution_ignores_failures st0 sig0 ⟨false, 0, none, none, some "strategy reverted"⟩ 0 rfl

/-- C1: for every signal, configured venue and route with at least one
strategy, the profit estimate equals `(signal.weight / 10)` times the venue's
configured chain modifier, times the maximum per-strategy profit rate over the
route's strategies (an unconfigured strategy contributing the default rate
0.01 instead of failing), times the cascade multiplier
`1 + signal.cascadePotential / 100`. -/
theorem calculateExpectedProfit_spec (signal : Signal) (venue : String)
    (route : Route) (m : ℚ)
    (hm : mapGet chainModifiers venue = some m)
    (hne : route.strategies ≠ []) :
    (∀ s, mapGet strategyProfits s = none → strategyRate s = 1/100) ∧
    ∃ R, calculateExpectedProfit signal venue route
          = some (signal.weight / 10 * m * R * (1 + signal.cascadePotential / 100)) ∧
        R ∈ route.strategies.map strategyRate ∧
        ∀ s ∈ route.strategies, strategyRate s ≤ R := by
  refine ⟨fun s hs => by simp [strategyRate, hs], ?_⟩
  obtain ⟨h1, h2, h3⟩ := foldl_max_rate route.strategies 0
  refine ⟨route.strategies.foldl (fun acc s => max acc (strategyRate s)) 0, ?_, ?_, h3⟩
  · simp [calculateExpectedProfit, hm]
  · rcases h2 with h2 | h2
    · obtain ⟨s, hs⟩ := List.exists_mem_of_ne_nil route.strategies hne
      have hle := h3 s hs
      rw [h2] at hle
      exact absurd hle (not_le.mpr (strategyRate_pos s))
    · exact h2

/-- C1 witness: the estimate of `sig0` on ethereum, by direct application of
`calculateExpectedProfit_spec`. -/
theorem calculateExpectedProfit_spec_witness :
    (∀ s, mapGet strategyProfits s = none → strategyRate s = 1/100) ∧
    ∃ R, calculateExpectedProfit sig0 "ethereum" route0
          = some (sig0.weight / 10 * 1 * R * (1 + sig0.cascadePotential / 100)) ∧
        R ∈ route0.strategies.map strategyRate ∧
        ∀ s ∈ route0.strategies, strategyRate s ≤ R :=
  calculateExpectedProfit_spec sig0 "ethereum" route0 1 rfl (by simp [route0])

/-- C2: whenever a signal's type has a route and the profit-descending stable
sort of the qualifying venues is non-empty, `routeSignal` executes its first
element, whose expected profit meets `route.minProfit` and is maximal among
all qualifying venues; in particular, for `sig0` with route `route0` both
venues qualify (`eligibleOpportunities` lists ethereum then arbitrum in
declaration order), sorting keeps ethereum — expected profit
`0.95 × 1.0 × 0.08 × 1.85`, above arbitrum's `0.95 × 0.7 × 0.08 × 1.85` —
first, and `routeSignal` executes the ethereum opportunity. -/
theorem routeSignal_selects_top_opportunity :
    (∀ st exec t signal route best rest,
        mapGet signalRoutes signal.type = some route →
        sortOpps (eligibleOpportunities signal route) = best :: rest →
        routeSignal st exec signal t =
          (trackAttribution st signal (executeStrategy exec best) t,
           some (executeStrategy exec best)) ∧
        route.minProfit ≤ best.expectedProfit ∧
        (∀ o ∈ eligibleOpportunities signal route,
          o.expectedProfit ≤ best.expectedProfit)) ∧
    eligibleOpportunities sig0 route0 = [ethOpp, arbOpp] ∧
    sortOpps [ethOpp, arbOpp] = [ethOpp, arbOpp] ∧
    ∀ st exec t, routeSignal st exec sig0 t =
      (trackAttribution st sig0 (executeStrategy exec ethOpp) t,
       some (executeStrategy exec ethOpp)) := by
  refine ⟨?_, eligible_sig0, sort_sig0, routeSignal_sig0⟩
  intro st exec t signal route best rest hroute hsort
  refine ⟨by simp [routeSignal, hroute, hsort], ?_, sortOpps_head_max hsort⟩
  have hb : best ∈ eligibleOpportunities signal route := by
    have hmem : best ∈ sortOpps (eligibleOpportunities signal route) := by
      rw [hsort]
      exact List.mem_cons_self _ _
    exact mem_sortOpps.mp hmem
  exact mem_eligible_minProfit hb

/-- C2 witness: the general selection property of
`routeSignal_selects_top_opportunity` applied to `sig0` and a concrete
executor. -/
theorem routeSignal_selects_top_opportunity_witness :
    routeSignal st0 execOk sig0 0 =
      (trackAttribution st0 sig0 (executeStrategy execOk ethOpp) 0,
       some (executeStrategy execOk ethOpp)) ∧
    route0.minProfit ≤ ethOpp.expectedProfit := by
  have h := routeSignal_selects_top_opportunity.1 st0 execOk 0 sig0 route0
    ethOpp [arbOpp] sig0_route (by rw [eligible_sig0, sort_sig0])
  exact ⟨h.1, h.2.1⟩

/-- C3 counterexample: on the concrete ledger `l3b` the chain `"SIG-1"` is
`COMPLETED`, and a subsequent `BOT_RESPONSE` `recordEvent` call (`l3c`) moves
it back to `TRIGGERED`, a strictly earlier status in the documented partial
order — the status regresses out of `Completed`. -/
theorem status_regression_counterexample :
    (mapGet l3b.chains "SIG-1").map Chain.status = some Status.COMPLETED ∧
    (mapGet l3c.chains "SIG-1").map Chain.status = some Status.TRIGGERED ∧
    Status.rank Status.TRIGGERED < Status.rank Status.COMPLETED := by
  refine ⟨?_, ?_, by decide⟩ <;>
    simp [l3a, l3b, l3c, ledger0, tagJAM, recordProfit, recordEvent, pd0, origin0,
          mapGet, mapSet]

/-- C3 (amended): the ledger overwrites a chain's status from the incoming
call alone — `recordEvent` sets `TRIGGERED` on a `BOT_RESPONSE` event and
`PROFITABLE` on a `LIQUIDATION_EXECUTED` event regardless of the current
status (leaving it unchanged for other event types), and `recordProfit`
always sets `COMPLETED`, the maximal status, so `recordProfit` never
regresses a chain; `recordEvent`, however, can move a `Completed` chain back
to `Triggered` (see the counterexample). -/
theorem status_update_semantics (l : Ledger) (id : String) (e : EventData)
    (pd : ProfitData) (t : ℚ) (chain : Chain)
    (h : mapGet l.chains id = some chain) :
    (mapGet (recordEvent l id e t).chains id).map Chain.status =
      some (if e.type = "BOT_RESPONSE" then Status.TRIGGERED
            else if e.type = "LIQUIDATION_EXECUTED" then Status.PROFITABLE
            else chain.status) ∧
    (mapGet (recordProfit l id pd t).ledger.chains id).map Chain.status =
      some Status.COMPLETED ∧
    Status.rank chain.status ≤ Status.rank Status.COMPLETED := by
  refine ⟨?_, ?_, ?_⟩
  · simp [recordEvent, h, mapGet_mapSet_self]
  · simp [recordProfit, h, mapGet_mapSet_self]
  · cases chain.status <;> decide

/-- C3 amended witness: the status updates on the concrete one-chain ledger
`lW`, by direct application of `status_update_semantics`. -/
theorem status_update_semantics_witness :
    (mapGet (recordEvent lW "SIG-1" ⟨"BOT_RESPONSE", "0xE", none, none⟩ 1).chains
        "SIG-1").map Chain.status = some Status.TRIGGERED ∧
    (mapGet (recordProfit lW "SIG-1" pd0 1).ledger.chains "SIG-1").map Chain.status =
      some Status.COMPLETED := by
  have h := status_update_semantics lW "SIG-1" ⟨"BOT_RESPONSE", "0xE", none, none⟩
    pd0 1 chainB rfl
  refine ⟨?_, h.2.1⟩
  have h1 := h.1
  simpa using h1

/-- C4 counterexample: recording `pd0` (net profit 4) twice with the same
`txHash` `"0xT"` leaves the chain's cumulative profit at 8, not at the 4 it
held after the first recording — `recordProfit` double-counts. -/
theorem recordProfit_double_count_counterexample :
    (mapGet l3b.chains "SIG-1").map Chain.profit = some 4 ∧
    (mapGet l4c.chains "SIG-1").map Chain.profit = some 8 ∧ (8 : ℚ) ≠ 4 := by
  refine ⟨?_, ?_, by norm_num⟩ <;>
    · simp [l3a, l3b, l4c, ledger0, tagJAM, recordProfit, pd0, origin0, mapGet, mapSet]
      norm_num

/-- C4 (amended): `recordProfit` does not deduplicate by `executionRef`:
recording the same profit data (same `txHash`) twice on an existing chain
adds its net profit to the chain's cumulative total both times, leaving the
total at the original profit plus twice the net profit. -/
theorem recordProfit_same_txHash_double_counts (l : Ledger) (id : String)
    (pd : ProfitData) (t₁ t₂ : ℚ) (chain : Chain)
    (h : mapGet l.chains id = some chain) :
    (mapGet (recordProfit (recordProfit l id pd t₁).ledger id pd t₂).ledger.chains
        id).map Chain.profit
      = some (chain.profit + 2 * (pd.amountETH - pd.gasSpent.getD 0)) := by
  simp only [recordProfit, h, mapGet_mapSet_self]
  simp only [Option.map_some']
  congr 1
  ring

/-- C4 amended witness: two recordings of `pd0` on the one-chain ledger `lW`
leave the chain total at `0 + 2 × 4 = 8`, by direct application of
`recordProfit_same_txHash_double_counts`. -/
theorem recordProfit_same_txHash_double_counts_witness :
    (mapGet (recordProfit (recordProfit lW "SIG-1" pd0 1).ledger "SIG-1" pd0 2).ledger.chains
        "SIG-1").map Chain.profit = some 8 := by
  have h := recordProfit_same_txHash_double_counts lW "SIG-1" pd0 1 2 chainB rfl
  rw [h]
  norm_num [chainB, pd0]

/-- C6: serializing any ledger state to the persisted format (chain and
profit entry lists plus a timestamp) and reloading reconstructs an in-memory
ledger whose chains and profits equal the original — load after save is the
identity on the ledger. -/
theorem loadFromDatabase_saveToDatabase_roundtrip (l : Ledger) (t : ℚ) :
    loadFromDatabase (saveToDatabase l t) = some l := by
  obtain ⟨chains, profits⟩ := l
  simp [saveToDatabase, loadFromDatabase, mapGet,
        decodeList_map decodeChainEntry encodeChainEntry decodeChainEntry_encodeChainEntry,
        decodeList_map decodeProfitEntry encodeProfitEntry decodeProfitEntry_encodeProfitEntry]

end CausalFinance
